import Mathlib

/-!
Verification of the slack-claude-mcp-bot repository: a shallow embedding of
the tool-approval workflow (slack_client.py, claude_client.py) and the MCP
process supervisor (mcp_manager.py, utils.py), with theorems settling the
frozen claims about them.

Modelling conventions:
- Python dicts keyed by strings become association lists
  (List (String × α)); dict assignment is updateAssoc, del is removeKey,
  .get is lookupStr.
- The external Anthropic API call (client.messages.create) is modelled by an
  oracle parameter ai : List Turn → String giving the assistant text for a
  transcript; uuid.uuid4() is modelled by an explicitly supplied fresh
  identifier string.
- A raised Python exception that the function under study does not catch is
  an Except.error carrying the exception text; a normal return is Except.ok.
- Python truthiness of an optional string (None or missing key, or the empty
  string, are falsy) is optTruthy.
-/

set_option autoImplicit false

/-- Python truthiness of an optional string value: None and the empty string
are falsy, every other string is truthy. -/
def optTruthy : Option String → Bool
  | none => false
  | some s => s != ""

/-- Whether pat is a leading segment of s, on character lists. -/
def startsWithChars : List Char → List Char → Bool
  | [], _ => true
  | _ :: _, [] => false
  | p :: ps, c :: cs => p == c && startsWithChars ps cs

/-- Whether pat occurs contiguously in s, on character lists. -/
def containsChars (pat : List Char) : List Char → Bool
  | [] => pat.isEmpty
  | c :: rest => startsWithChars pat (c :: rest) || containsChars pat rest

/-- Substring containment, modelling the Python expression pat in s
(the patterns used by the source are all non-empty literals). -/
def strContains (s pat : String) : Bool :=
  containsChars pat.toList s.toList

/-- Association-list lookup, modelling Python dict .get / membership test. -/
def lookupStr {α : Type} : List (String × α) → String → Option α
  | [], _ => none
  | kv :: rest, k => if kv.1 = k then some kv.2 else lookupStr rest k

/-- Association-list update, modelling Python dict assignment d[k] = v:
replaces the value at an existing key, appends the pair otherwise. -/
def updateAssoc {α : Type} : List (String × α) → String → α → List (String × α)
  | [], k, v => [(k, v)]
  | kv :: rest, k, v => if kv.1 = k then (k, v) :: rest else kv :: updateAssoc rest k v

/-- Association-list removal, modelling Python dict deletion del d[k]. -/
def removeKey {α : Type} (m : List (String × α)) (k : String) : List (String × α) :=
  m.filter (fun kv => !(kv.1 == k))

/-- One role-tagged message of a conversation transcript
(the dicts with role and content keys built in claude_client.py). -/
structure Turn where
  role : String
  content : String
deriving DecidableEq, Repr

/-- claude_client.ToolRequest: parameters are modelled as a key/value list. -/
structure ToolRequest where
  id : String
  tool_name : String
  tool_params : List (String × String)
deriving DecidableEq, Repr

/-- claude_client.ClaudeResponse. -/
structure ClaudeResponse where
  type : String
  content : String
  tool_request : Option ToolRequest
deriving DecidableEq, Repr

/-- claude_client.ClaudeClient: its only model-relevant state is the
self.conversations dict mapping conversation id to transcript. -/
structure ClaudeClient where
  conversations : List (String × List Turn)
deriving DecidableEq, Repr

namespace ClaudeClient

/-- The system prompt installed by ClaudeClient.create_conversation. -/
def systemPromptBase : String :=
  "You are a helpful assistant integrated with Slack. You can use tools when necessary."

/-- ClaudeClient.create_conversation: installs the system turn under a fresh
uuid (the fresh_id argument models uuid.uuid4()); the tools argument models
the str(tools) text appended when the tools list is truthy (none models a
falsy tools argument). Returns the updated client and the conversation id. -/
def create_conversation (c : ClaudeClient) (fresh_id : String) (tools : Option String) :
    ClaudeClient × String :=
  let sys :=
    match tools with
    | none => systemPromptBase
    | some t => systemPromptBase ++ "\nAvailable tools: " ++ t
  (⟨updateAssoc c.conversations fresh_id [⟨"system", sys⟩]⟩, fresh_id)

/-- ClaudeClient.add_context: raises ValueError for an unknown conversation
id; otherwise overwrites the stored conversation with its first (system)
turn followed by the supplied messages. The Python function has no return
statement, so the returned payload component is none (Python None). -/
def add_context (c : ClaudeClient) (conversation_id : String) (messages : List Turn) :
    Except String (ClaudeClient × Option (List Turn)) :=
  match lookupStr c.conversations conversation_id with
  | none => .error ("Conversation " ++ conversation_id ++ " does not exist")
  | some conv =>
      .ok (⟨updateAssoc c.conversations conversation_id (conv.take 1 ++ messages)⟩, none)

/-- The hard-coded tool request minted by send_message / send_tool_result
whenever the assistant text contains the literal tool-use marker: the tool
name and parameters are fixed constants in the source, only the id is fresh. -/
def hardcodedRequest (fresh : String) : ToolRequest :=
  ⟨fresh, "example_tool", [("param1", "value1")]⟩

/-- Shared response classification of send_message / send_tool_result:
a reply containing the tool-use marker becomes a tool_use_request carrying
the hard-coded request; one containing the final-answer marker becomes a
final_answer with the markers stripped; anything else is a text reply. -/
def classifyResponse (fresh : String) (response_text : String) : ClaudeResponse :=
  if strContains response_text "<tool_use>" then
    ⟨"tool_use_request", response_text, some (hardcodedRequest fresh)⟩
  else if strContains response_text "<final_answer>" then
    ⟨"final_answer",
      (response_text.replace "<final_answer>" "").replace "</final_answer>" "", none⟩
  else
    ⟨"text", response_text, none⟩

/-- ClaudeClient.send_message: raises ValueError for an unknown conversation
id; otherwise appends the human turn, obtains the assistant text from the
API oracle, appends the assistant turn, and classifies the reply. -/
def send_message (ai : List Turn → String) (fresh : String) (c : ClaudeClient)
    (conversation_id : String) (message : String) :
    Except String (ClaudeClient × ClaudeResponse) :=
  match lookupStr c.conversations conversation_id with
  | none => .error ("Conversation " ++ conversation_id ++ " does not exist")
  | some conv =>
      let conv1 := conv ++ [⟨"human", message⟩]
      let response_text := ai conv1
      let conv2 := conv1 ++ [⟨"assistant", response_text⟩]
      .ok (⟨updateAssoc c.conversations conversation_id conv2⟩,
           classifyResponse fresh response_text)

/-- ClaudeClient.send_tool_result: raises ValueError for an unknown
conversation id; otherwise appends the tool result as a system turn, obtains
the assistant text, appends the assistant turn, and classifies the reply
exactly as send_message does. -/
def send_tool_result (ai : List Turn → String) (fresh : String) (c : ClaudeClient)
    (conversation_id : String) (request_id : String) (tool_result : String) :
    Except String (ClaudeClient × ClaudeResponse) :=
  match lookupStr c.conversations conversation_id with
  | none => .error ("Conversation " ++ conversation_id ++ " does not exist")
  | some conv =>
      let conv1 := conv ++
        [⟨"system", "Tool result for request " ++ request_id ++ ": " ++ tool_result⟩]
      let response_text := ai conv1
      let conv2 := conv1 ++ [⟨"assistant", response_text⟩]
      .ok (⟨updateAssoc c.conversations conversation_id conv2⟩,
           classifyResponse fresh response_text)

/-- ClaudeClient.notify_tool_denial: raises ValueError for an unknown
conversation id; otherwise appends the denial notice as a system turn,
obtains the assistant text, appends the assistant turn, and always returns a
text response. -/
def notify_tool_denial (ai : List Turn → String) (c : ClaudeClient)
    (conversation_id : String) (request_id : String) :
    Except String (ClaudeClient × ClaudeResponse) :=
  match lookupStr c.conversations conversation_id with
  | none => .error ("Conversation " ++ conversation_id ++ " does not exist")
  | some conv =>
      let conv1 := conv ++
        [⟨"system", "Tool use request " ++ request_id ++ " was denied by the user."⟩]
      let response_text := ai conv1
      let conv2 := conv1 ++ [⟨"assistant", response_text⟩]
      .ok (⟨updateAssoc c.conversations conversation_id conv2⟩,
           ⟨"text", response_text, none⟩)

end ClaudeClient

/-- The approval/denial button payload of slack_client.py: the JSON object
with conversation_id and request_id carried in the button value and parsed
back by handle_tool_approval / handle_tool_denial. -/
structure Payload where
  conversation_id : String
  request_id : String
deriving DecidableEq, Repr

/-- The slack_client.py module state: conversation_store maps a
conversation_id minted in handle_claude_response to the stored conversation
value. The stored value is used by the handlers only as the first argument
of send_tool_result / notify_tool_denial, i.e. as a Claude conversation id,
so it is modelled as a String. -/
structure BotState where
  conversation_store : List (String × String)
deriving DecidableEq, Repr

/-- Observable outcome of one approval/denial handler invocation: the
module state afterwards, the request ids passed to mcp_manager.execute_tool
during the call (in order), and normal return versus an uncaught exception. -/
structure HandlerResult where
  state : BotState
  executed : List String
  outcome : Except String Unit
deriving Repr

/-- slack_client.request_tool_approval: the only record the code keeps of a
conversation's pending tool request is the payload embedded in the Approve
and Deny button values, both carrying the stored conversation_id and the
minted tool_request.id. Returns the (approve, deny) button payloads. -/
def request_tool_approval (conversation_id : String) (tool_request : ToolRequest) :
    Payload × Payload :=
  (⟨conversation_id, tool_request.id⟩, ⟨conversation_id, tool_request.id⟩)

/-- slack_client.handle_tool_approval. Steps of the source, in order:
look the conversation up in conversation_store (a falsy stored value — the
empty string — is treated like a missing one and the handler returns after a
chat update, executing nothing); otherwise update the Slack message, call
mcp_manager.execute_tool(request_id) (mcpExec is its result oracle; the
Python method catches its own exceptions and always returns), construct a
fresh ClaudeClient() whose conversations table is empty, and call
send_tool_result on it. That call raises ValueError because the fresh
client knows no conversation, so the store update on the line after it is
never reached; were it reached, it would itself raise AttributeError, since
ClaudeResponse has no conversation attribute. -/
def handle_tool_approval (ai : List Turn → String) (mcpExec : String → String)
    (fresh : String) (st : BotState) (p : Payload) : HandlerResult :=
  match lookupStr st.conversation_store p.conversation_id with
  | none => ⟨st, [], .ok ()⟩
  | some conv =>
      if conv = "" then ⟨st, [], .ok ()⟩
      else
        let tool_result := mcpExec p.request_id
        let claude : ClaudeClient := ⟨[]⟩
        match ClaudeClient.send_tool_result ai fresh claude conv p.request_id tool_result with
        | .error e => ⟨st, [p.request_id], .error e⟩
        | .ok _ =>
            ⟨st, [p.request_id],
             .error "AttributeError: ClaudeResponse object has no attribute conversation"⟩

/-- slack_client.handle_tool_denial. Same shape as handle_tool_approval but
with no execute_tool call: look the conversation up (falsy treated as
missing), update the Slack message, construct a fresh ClaudeClient() with an
empty conversations table, and call notify_tool_denial on it, which raises
ValueError; the store update after it is never reached (and would raise
AttributeError if it were). -/
def handle_tool_denial (ai : List Turn → String) (st : BotState) (p : Payload) :
    HandlerResult :=
  match lookupStr st.conversation_store p.conversation_id with
  | none => ⟨st, [], .ok ()⟩
  | some conv =>
      if conv = "" then ⟨st, [], .ok ()⟩
      else
        let claude : ClaudeClient := ⟨[]⟩
        match ClaudeClient.notify_tool_denial ai claude conv p.request_id with
        | .error e => ⟨st, [], .error e⟩
        | .ok _ =>
            ⟨st, [],
             .error "AttributeError: ClaudeResponse object has no attribute conversation"⟩

/-- One Slack message as consumed by the thread-history formatters: only the
bot_id and text keys are read; an absent key is none. -/
structure SlackMsg where
  bot_id : Option String
  text : Option String
deriving DecidableEq, Repr

/-- utils.format_message_for_claude: skips messages whose bot_id is truthy;
for the rest the role expression evaluates "human" when bot_id is falsy and
"assistant" otherwise, and the text is read with .get("text", ""). -/
def format_message_for_claude : List SlackMsg → List Turn
  | [] => []
  | msg :: rest =>
      if optTruthy msg.bot_id then format_message_for_claude rest
      else
        ⟨if !(optTruthy msg.bot_id) then "human" else "assistant", msg.text.getD ""⟩ ::
          format_message_for_claude rest

/-- slack_client.format_messages_for_claude: identical to the utils variant
except that the text is read with msg["text"], which raises KeyError when
the key is absent. -/
def format_messages_for_claude : List SlackMsg → Except String (List Turn)
  | [] => .ok []
  | msg :: rest =>
      if optTruthy msg.bot_id then format_messages_for_claude rest
      else
        match msg.text with
        | none => .error "KeyError: text"
        | some t =>
            match format_messages_for_claude rest with
            | .error e => .error e
            | .ok l =>
                .ok (⟨if !(optTruthy msg.bot_id) then "human" else "assistant", t⟩ :: l)

/-- One entry of the servers list of the MCP configuration; each field
models the presence (some) or absence (none) of the corresponding key. -/
structure ServerConfig where
  name : Option String
  command : Option String
  args : List String
  module : Option String
deriving DecidableEq, Repr

/-- The parsed MCP configuration document: servers is none when the key is
absent. -/
structure MCPConfig where
  servers : Option (List ServerConfig)
deriving DecidableEq, Repr

/-- The loop body of utils.validate_mcp_config: returns false at the first
entry missing name, or missing both command and module; true when the loop
completes. -/
def validate_servers : List ServerConfig → Bool
  | [] => true
  | s :: rest =>
      if s.name.isNone then false
      else if s.command.isNone && s.module.isNone then false
      else validate_servers rest

/-- utils.validate_mcp_config: false when the servers key is absent,
otherwise the per-entry loop. -/
def validate_mcp_config (config : MCPConfig) : Bool :=
  match config.servers with
  | none => false
  | some servers => validate_servers servers

/-- A live subprocess handle (psutil.Process), identified by its pid. -/
structure Proc where
  pid : Nat
deriving DecidableEq, Repr

/-- Launch oracle modelling subprocess.Popen + psutil.Process in
MCPManager._start_process: Except.error is a raised exception (for example
FileNotFoundError for a missing executable), Except.ok the new handle. -/
def Launch : Type := String → List String → Except String Proc

/-- MCPManager._start_process as called with an optional command value:
restart_server passes server_config.get("command") straight through, and
Popen([None] + args) raises TypeError when the command key is absent. -/
def start_process (launch : Launch) (cmd : Option String) (args : List String) :
    Except String Proc :=
  match cmd with
  | none => .error "TypeError: expected str, bytes or os.PathLike object, not NoneType"
  | some c => launch c args

/-- The MCPManager state: the parsed configuration and the server_processes
table mapping server name to its live process handle. -/
structure MCPManager where
  config : MCPConfig
  server_processes : List (String × Proc)
deriving DecidableEq, Repr

/-- Outcome of the graceful-then-forced termination sequence used by
restart_server and stop_server, abstracting psutil: the process dies on
terminate, dies only on kill, survives even kill (the could-not-kill
branch), or terminate raises NoSuchProcess because it is already gone. -/
inductive TermOutcome where
  | goneOnTerminate
  | goneOnKill
  | neverDies
  | noSuchProcess
deriving DecidableEq, Repr

namespace MCPManager

/-- MCPManager.restart_server. Steps of the source, in order: unknown name
returns false; the old process is terminated (NoSuchProcess is caught, and
no branch of the termination sequence affects the return value or the
table); a missing config entry for the name returns false; the relaunch via
_start_process either raises (the exception propagates: no false return) or
yields a new handle which is stored in the table under the name, after which
the liveness poll decides true (alive) or false (already dead). -/
def restart_server (launch : Launch) (alive : Proc → Bool) (m : MCPManager)
    (server_name : String) : MCPManager × Except String Bool :=
  match lookupStr m.server_processes server_name with
  | none => (m, .ok false)
  | some _ =>
      match (m.config.servers.getD []).find? (fun s => s.name == some server_name) with
      | none => (m, .ok false)
      | some server_config =>
          match start_process launch server_config.command server_config.args with
          | .error e => (m, .error e)
          | .ok new_process =>
              let m2 : MCPManager :=
                ⟨m.config, updateAssoc m.server_processes server_name new_process⟩
              if alive new_process then (m2, .ok true) else (m2, .ok false)

/-- MCPManager.stop_server: unknown name returns false; otherwise the
process is terminated gracefully then killed; only when it survives the
kill does the method return false with the entry retained; in every other
outcome (including NoSuchProcess raised by terminate, which the except
branch catches) the entry is deleted and the method returns true. -/
def stop_server (term : Proc → TermOutcome) (m : MCPManager) (server_name : String) :
    MCPManager × Bool :=
  match lookupStr m.server_processes server_name with
  | none => (m, false)
  | some process =>
      match term process with
      | .neverDies => (m, false)
      | _ => (⟨m.config, removeKey m.server_processes server_name⟩, true)

/-- The server-starting loop of MCPManager.start_mcp_servers (the
production, non-TESTING branch): for each configured entry whose command is
truthy, launch it and store the handle under the entry name (default
"unnamed-server"); a launch exception propagates out of the whole loop (the
surrounding except clause re-raises); the post-launch liveness check only
logs, so a dead process is kept in the table and startup continues; entries
without a truthy command only construct an SDK Server object that is never
run and add nothing to the table. -/
def start_servers_loop (launch : Launch) :
    List ServerConfig → List (String × Proc) → Except String (List (String × Proc))
  | [], table => .ok table
  | server_config :: rest, table =>
      if optTruthy server_config.command then
        match launch (server_config.command.getD "") server_config.args with
        | .error e => .error e
        | .ok process =>
            start_servers_loop launch rest
              (updateAssoc table (server_config.name.getD "unnamed-server") process)
      else
        start_servers_loop launch rest table

/-- MCPManager._initialize_client (production branch): it reads
self.config.get("servers", [...])[0], so a present but empty servers list
raises IndexError; otherwise only external SDK objects are constructed,
modelled as success. -/
def initialize_client (config : MCPConfig) : Except String Unit :=
  match config.servers with
  | some [] => .error "IndexError: list index out of range"
  | _ => .ok ()

/-- MCPManager.__init__ on an already-parsed configuration (loading the
JSON file is outside this model; a load failure raises before any of the
modelled steps). The constructor performs no validation of the
configuration: it starts the configured servers and initializes the client,
and succeeds whenever those steps raise nothing. -/
def init (launch : Launch) (config : MCPConfig) : Except String MCPManager :=
  match start_servers_loop launch (config.servers.getD []) [] with
  | .error e => .error e
  | .ok table =>
      match initialize_client config with
      | .error e => .error e
      | .ok _ => .ok ⟨config, table⟩

end MCPManager

/-- Projection used to inspect which tool name a send_message result carries. -/
def resultToolName (r : Except String (ClaudeClient × ClaudeResponse)) : Option String :=
  match r with
  | .ok res => res.2.tool_request.map ToolRequest.tool_name
  | .error _ => none

/-- Helper: on a stored, non-falsy conversation the approval handler always
executes the payload's request id once and then fails inside the fresh
ClaudeClient, leaving the conversation store unchanged. -/
theorem handle_tool_approval_stored (ai : List Turn → String) (mcpExec : String → String)
    (fresh : String) (st : BotState) (p : Payload) (conv : String)
    (h1 : lookupStr st.conversation_store p.conversation_id = some conv)
    (h2 : conv ≠ "") :
    handle_tool_approval ai mcpExec fresh st p =
      ⟨st, [p.request_id], .error ("Conversation " ++ conv ++ " does not exist")⟩ := by
  unfold handle_tool_approval
  rw [h1]
  simp [h2, ClaudeClient.send_tool_result, lookupStr]

/-- C1: the claim says an Approve whose requestId mismatches the pending
request never invokes execute_tool. Counterexample: conversation c is
stored and its pending request — recorded only in the approval button
payload minted by request_tool_approval — has id r1, yet delivering an
Approve for the mismatched id r2 invokes execute_tool with r2. -/
theorem c1_mismatched_approve_executes_cex :
    (request_tool_approval "c" ⟨"r1", "example_tool", [("param1", "value1")]⟩).1.request_id ≠ "r2"
    ∧ (handle_tool_approval (fun _ => "OK") (fun _ => "done") "f1"
        ⟨[("c", "claude-conv")]⟩ ⟨"c", "r2"⟩).executed = ["r2"] :=
  ⟨by decide, rfl⟩

/-- C1 amended: for every approval callback whose conversationId is stored
under a non-falsy value, the handler invokes execute_tool exactly once with
the callback's requestId — no validation against the pending request is
performed — and the conversation store is left unchanged (the handler then
fails inside the freshly constructed AI client). -/
theorem handle_tool_approval_executes_any_request (ai : List Turn → String)
    (mcpExec : String → String) (fresh : String) (st : BotState) (p : Payload)
    (conv : String)
    (h1 : lookupStr st.conversation_store p.conversation_id = some conv)
    (h2 : conv ≠ "") :
    (handle_tool_approval ai mcpExec fresh st p).executed = [p.request_id]
    ∧ (handle_tool_approval ai mcpExec fresh st p).state = st := by
  rw [handle_tool_approval_stored ai mcpExec fresh st p conv h1 h2]
  exact ⟨rfl, rfl⟩

/-- C1 amended, witnessed at a concrete store and payload. -/
theorem c1_amended_witness :
    (handle_tool_approval (fun _ => "OK") (fun _ => "done") "f1"
        ⟨[("c", "claude-conv")]⟩ ⟨"c", "r9"⟩).executed = ["r9"]
    ∧ (handle_tool_approval (fun _ => "OK") (fun _ => "done") "f1"
        ⟨[("c", "claude-conv")]⟩ ⟨"c", "r9"⟩).state = ⟨[("c", "claude-conv")]⟩ :=
  handle_tool_approval_executes_any_request (fun _ => "OK") (fun _ => "done") "f1"
    ⟨[("c", "claude-conv")]⟩ ⟨"c", "r9"⟩ "claude-conv" rfl (by decide)

/-- C2: the claim says execute_tool runs at most once per request id even
when the same Approve is delivered twice. Counterexample: delivering the
same Approve payload twice against the resulting states invokes
execute_tool twice with the same request id r1. -/
theorem c2_duplicate_approve_executes_twice_cex :
    (handle_tool_approval (fun _ => "OK") (fun _ => "done") "f1"
        ⟨[("c", "claude-conv")]⟩ ⟨"c", "r1"⟩).executed ++
      (handle_tool_approval (fun _ => "OK") (fun _ => "done") "f2"
        (handle_tool_approval (fun _ => "OK") (fun _ => "done") "f1"
          ⟨[("c", "claude-conv")]⟩ ⟨"c", "r1"⟩).state ⟨"c", "r1"⟩).executed
      = ["r1", "r1"] := rfl

/-- C2 amended: each delivery of an Approve whose conversationId is stored
under a non-falsy value invokes execute_tool once with the payload's
requestId, and since the handler leaves the store unchanged, a duplicate
delivery of the same payload executes the tool again: there is no
at-most-once guard per ToolRequest id. -/
theorem handle_tool_approval_not_idempotent (ai : List Turn → String)
    (mcpExec : String → String) (fresh1 fresh2 : String) (st : BotState) (p : Payload)
    (conv : String)
    (h1 : lookupStr st.conversation_store p.conversation_id = some conv)
    (h2 : conv ≠ "") :
    (handle_tool_approval ai mcpExec fresh1 st p).executed = [p.request_id]
    ∧ (handle_tool_approval ai mcpExec fresh2
        (handle_tool_approval ai mcpExec fresh1 st p).state p).executed = [p.request_id] := by
  rw [handle_tool_approval_stored ai mcpExec fresh1 st p conv h1 h2]
  rw [handle_tool_approval_stored ai mcpExec fresh2 st p conv h1 h2]
  exact ⟨rfl, rfl⟩

/-- C2 amended, witnessed at a concrete store and payload. -/
theorem c2_amended_witness :
    (handle_tool_approval (fun _ => "OK") (fun _ => "done") "f1"
        ⟨[("c", "claude-conv")]⟩ ⟨"c", "r1"⟩).executed = ["r1"]
    ∧ (handle_tool_approval (fun _ => "OK") (fun _ => "done") "f2"
        (handle_tool_approval (fun _ => "OK") (fun _ => "done") "f1"
          ⟨[("c", "claude-conv")]⟩ ⟨"c", "r1"⟩).state ⟨"c", "r1"⟩).executed = ["r1"] :=
  handle_tool_approval_not_idempotent (fun _ => "OK") (fun _ => "done") "f1" "f2"
    ⟨[("c", "claude-conv")]⟩ ⟨"c", "r1"⟩ "claude-conv" rfl (by decide)

/-- C5: evaluating the denial handler on a stored conversation shows the
code bug: execute_tool is indeed never invoked, but instead of appending a
denial system turn and re-invoking the AI, the handler raises ValueError
from the freshly constructed ClaudeClient (whose conversations table is
empty), leaving the store unchanged and the AI never called. -/
theorem c5_denial_handler_raises_eval :
    handle_tool_denial (fun _ => "OK") ⟨[("c", "k")]⟩ ⟨"c", "r1"⟩ =
      ⟨⟨[("c", "k")]⟩, [], .error "Conversation k does not exist"⟩ := rfl

/-- An entry passing the per-server checks of validate_mcp_config. -/
def goodEntry (s : ServerConfig) : Bool :=
  s.name.isSome && (s.command.isSome || s.module.isSome)

/-- Helper: the early-return validation loop computes the conjunction of the
per-entry checks. -/
theorem validate_servers_eq_all (ss : List ServerConfig) :
    validate_servers ss = ss.all goodEntry := by
  induction ss with
  | nil => rfl
  | cons s rest ih =>
      unfold validate_servers
      cases hn : s.name with
      | none => simp [goodEntry, hn]
      | some n =>
          cases hcm : s.command with
          | some c => simp [goodEntry, hn, hcm, ih]
          | none =>
              cases hm : s.module with
              | none => simp [goodEntry, hn, hcm, hm]
              | some mo => simp [goodEntry, hn, hcm, hm, ih]

/-- C3: validate_mcp_config returns true exactly when the servers key is
present and every entry has a name and at least one of command or module;
in particular it returns false when the servers key is absent, when an
entry lacks a name, or when an entry lacks both command and module. -/
theorem validate_mcp_config_characterization (config : MCPConfig) :
    validate_mcp_config config = true ↔
      ∃ ss, config.servers = some ss ∧
        ∀ s ∈ ss, s.name.isSome = true ∧ (s.command.isSome = true ∨ s.module.isSome = true) := by
  cases hs : config.servers with
  | none => simp [validate_mcp_config, hs]
  | some ss =>
      simp only [validate_mcp_config, hs, Option.some.injEq]
      rw [validate_servers_eq_all, List.all_eq_true]
      constructor
      · intro h
        exact ⟨ss, rfl, fun s hsm => by
          have := h s hsm
          simpa [goodEntry, Bool.and_eq_true, Bool.or_eq_true] using this⟩
      · rintro ⟨ss2, hss, h⟩
        subst hss
        intro s hsm
        simpa [goodEntry, Bool.and_eq_true, Bool.or_eq_true] using h s hsm

/-- C3, witnessed: the characterization applied to a concrete passing
configuration and projected to a concrete failing one. -/
theorem c3_witness :
    validate_mcp_config ⟨some [⟨some "s1", some "echo", ["hi"], none⟩,
        ⟨some "s2", none, [], some "mod"⟩]⟩ = true
    ∧ validate_mcp_config ⟨some [⟨none, some "echo", [], none⟩]⟩ = false := by
  constructor
  · exact (validate_mcp_config_characterization _).mpr ⟨_, rfl, by decide⟩
  · by_contra h
    simp only [Bool.not_eq_false] at h
    obtain ⟨ss, hss, hall⟩ := (validate_mcp_config_characterization _).mp h
    obtain rfl : ss = [⟨none, some "echo", [], none⟩] := by
      simpa using hss.symm
    have := hall ⟨none, some "echo", [], none⟩ (by simp)
    simp at this

/-- C4: the claim says supervisor construction fails and starts nothing on
a configuration that fails validation. Counterexample: a configuration
whose single entry lacks a name fails validation, yet construction succeeds
and starts that entry's process under the default name. -/
theorem c4_init_starts_from_invalid_config_cex :
    validate_mcp_config ⟨some [⟨none, some "echo", ["hi"], none⟩]⟩ = false
    ∧ MCPManager.init (fun _ _ => .ok ⟨42⟩) ⟨some [⟨none, some "echo", ["hi"], none⟩]⟩
        = .ok ⟨⟨some [⟨none, some "echo", ["hi"], none⟩]⟩, [("unnamed-server", ⟨42⟩)]⟩ :=
  ⟨rfl, rfl⟩

/-- Helper: when every launch succeeds, the server-starting loop raises
nothing. -/
theorem start_servers_loop_total (launch : Launch)
    (hl : ∀ c a, ∃ q, launch c a = .ok q) :
    ∀ (ss : List ServerConfig) (table : List (String × Proc)),
      ∃ t, MCPManager.start_servers_loop launch ss table = .ok t := by
  intro ss
  induction ss with
  | nil => exact fun table => ⟨table, rfl⟩
  | cons s rest ih =>
      intro table
      by_cases hc : optTruthy s.command
      · obtain ⟨q, hq⟩ := hl (s.command.getD "") s.args
        simpa [MCPManager.start_servers_loop, hc, hq] using
          ih (updateAssoc table (s.name.getD "unnamed-server") q)
      · simpa [MCPManager.start_servers_loop, hc] using ih table
/-- C4 amended: MCPManager.__init__ never invokes validate_mcp_config.
For every configuration that fails validation (and does not carry a present
but empty servers list, which would raise IndexError in client
initialization), construction succeeds whenever every process launch
succeeds, keeping the configuration as given — the supervisor boots and
partially starts from invalid configuration rather than failing. -/
theorem mcp_init_ignores_validation (launch : Launch) (config : MCPConfig)
    (hl : ∀ c a, ∃ q, launch c a = .ok q)
    (h1 : config.servers ≠ some [])
    (h2 : validate_mcp_config config = false) :
    ∃ m, MCPManager.init launch config = .ok m ∧ m.config = config := by
  obtain ⟨t, ht⟩ := start_servers_loop_total launch hl (config.servers.getD []) []
  have hclient : MCPManager.initialize_client config = .ok () := by
    unfold MCPManager.initialize_client
    match hs : config.servers with
    | none => rfl
    | some [] => exact absurd hs h1
    | some (s :: rest) => rfl
  refine ⟨⟨config, t⟩, ?_, rfl⟩
  unfold MCPManager.init
  rw [ht, hclient]

/-- C4 amended, witnessed at a concrete invalid configuration that boots. -/
theorem c4_amended_witness :
    ∃ m, MCPManager.init (fun _ _ => .ok ⟨7⟩) ⟨some [⟨none, none, [], none⟩]⟩ = .ok m
      ∧ m.config = ⟨some [⟨none, none, [], none⟩]⟩ :=
  mcp_init_ignores_validation (fun _ _ => .ok ⟨7⟩) ⟨some [⟨none, none, [], none⟩]⟩
    (fun _ _ => ⟨⟨7⟩, rfl⟩) (by decide) rfl

/-- C6: the claim says restart_server returns false when the relaunch
fails. Counterexample: for a known server whose relaunch raises (missing
executable), the exception propagates out of restart_server instead of a
false return — and the code maintains no restartCount that any call could
increase. -/
theorem c6_restart_raises_on_launch_failure_cex :
    (MCPManager.restart_server (fun _ _ => .error "FileNotFoundError") (fun _ => true)
        ⟨⟨some [⟨some "s1", some "missing-cmd", [], none⟩]⟩, [("s1", ⟨7⟩)]⟩ "s1").2
      = .error "FileNotFoundError"
    ∧ (.error "FileNotFoundError" : Except String Bool) ≠ .ok false :=
  ⟨rfl, fun h => Except.noConfusion h⟩

/-- C6 amended: restart_server returns false when the name is unknown to
the process table, when no configured server bears that name, or when the
relaunched process is not alive after launch; when the relaunch itself
raises, the exception propagates instead of a false return; on a successful
launch the table maps the name to the new process and the result is the
liveness poll. The code maintains no restartCount, so no counter increases. -/
theorem restart_server_characterization (launch : Launch) (alive : Proc → Bool)
    (m : MCPManager) (server_name : String) :
    (lookupStr m.server_processes server_name = none →
      MCPManager.restart_server launch alive m server_name = (m, .ok false))
    ∧ (∀ p, lookupStr m.server_processes server_name = some p →
        (m.config.servers.getD []).find? (fun s => s.name == some server_name) = none →
        MCPManager.restart_server launch alive m server_name = (m, .ok false))
    ∧ (∀ p sc e, lookupStr m.server_processes server_name = some p →
        (m.config.servers.getD []).find? (fun s => s.name == some server_name) = some sc →
        start_process launch sc.command sc.args = .error e →
        MCPManager.restart_server launch alive m server_name = (m, .error e))
    ∧ (∀ p sc q, lookupStr m.server_processes server_name = some p →
        (m.config.servers.getD []).find? (fun s => s.name == some server_name) = some sc →
        start_process launch sc.command sc.args = .ok q →
        MCPManager.restart_server launch alive m server_name =
          (⟨m.config, updateAssoc m.server_processes server_name q⟩, .ok (alive q))) := by
  refine ⟨?_, ?_, ?_, ?_⟩
  · intro h
    unfold MCPManager.restart_server
    rw [h]
  · intro p hp hf
    unfold MCPManager.restart_server
    rw [hp, hf]
  · intro p sc e hp hf hs
    simp only [MCPManager.restart_server, hp, hf, hs]
  · intro p sc q hp hf hs
    simp only [MCPManager.restart_server, hp, hf, hs]
    cases ha : alive q <;> simp [ha]

/-- C6 amended, witnessed: a concrete unknown name returns false, and a
concrete relaunch whose new process is not alive returns false with the
table pointing at the new process. -/
theorem c6_amended_witness :
    MCPManager.restart_server (fun _ _ => .ok ⟨9⟩) (fun _ => false)
        ⟨⟨some [⟨some "s1", some "cmd", [], none⟩]⟩, []⟩ "s1"
      = (⟨⟨some [⟨some "s1", some "cmd", [], none⟩]⟩, []⟩, .ok false)
    ∧ MCPManager.restart_server (fun _ _ => .ok ⟨9⟩) (fun _ => false)
        ⟨⟨some [⟨some "s1", some "cmd", [], none⟩]⟩, [("s1", ⟨7⟩)]⟩ "s1"
      = (⟨⟨some [⟨some "s1", some "cmd", [], none⟩]⟩, [("s1", ⟨9⟩)]⟩, .ok false) :=
  ⟨(restart_server_characterization (fun _ _ => .ok ⟨9⟩) (fun _ => false)
      ⟨⟨some [⟨some "s1", some "cmd", [], none⟩]⟩, []⟩ "s1").1 rfl,
   (restart_server_characterization (fun _ _ => .ok ⟨9⟩) (fun _ => false)
      ⟨⟨some [⟨some "s1", some "cmd", [], none⟩]⟩, [("s1", ⟨7⟩)]⟩ "s1").2.2.2
     ⟨7⟩ ⟨some "s1", some "cmd", [], none⟩ ⟨9⟩ rfl rfl rfl⟩

/-- Helper: deleting a key from the table makes a lookup of that key fail. -/
theorem lookupStr_removeKey {α : Type} (m : List (String × α)) (k : String) :
    lookupStr (removeKey m k) k = none := by
  induction m with
  | nil => rfl
  | cons kv rest ih =>
      by_cases h : kv.1 = k
      · simpa [removeKey, List.filter_cons, h] using ih
      · simpa [removeKey, List.filter_cons, h, lookupStr] using ih

/-- C7: stop_server returns false exactly when the name is unknown or the
process survives even the force kill; when it returns true the entry is
gone from the table; when the force kill fails the whole state (the entry
included) is retained. -/
theorem stop_server_spec (term : Proc → TermOutcome) (m : MCPManager)
    (server_name : String) :
    ((MCPManager.stop_server term m server_name).2 = false ↔
      lookupStr m.server_processes server_name = none ∨
        ∃ p, lookupStr m.server_processes server_name = some p ∧ term p = .neverDies)
    ∧ ((MCPManager.stop_server term m server_name).2 = true →
        lookupStr (MCPManager.stop_server term m server_name).1.server_processes
          server_name = none)
    ∧ (∀ p, lookupStr m.server_processes server_name = some p → term p = .neverDies →
        (MCPManager.stop_server term m server_name).1 = m) := by
  cases hl : lookupStr m.server_processes server_name with
  | none =>
      refine ⟨by simp [MCPManager.stop_server, hl], ?_, ?_⟩
      · intro h
        simp [MCPManager.stop_server, hl] at h
      · intro p hp
        exact absurd hp (by simp)
  | some p =>
      cases ht : term p with
      | neverDies =>
          refine ⟨?_, ?_, ?_⟩
          · simp [MCPManager.stop_server, hl, ht]
          · intro h
            simp [MCPManager.stop_server, hl, ht] at h
          · intro q hq _
            simp [MCPManager.stop_server, hl, ht]
      | goneOnTerminate =>
          refine ⟨?_, ?_, ?_⟩
          · simp [MCPManager.stop_server, hl, ht]
          · intro _
            simp [MCPManager.stop_server, hl, ht, lookupStr_removeKey]
          · intro q hq hterm
            obtain rfl : p = q := by simpa using hq
            rw [ht] at hterm
            exact absurd hterm (by simp)
      | goneOnKill =>
          refine ⟨?_, ?_, ?_⟩
          · simp [MCPManager.stop_server, hl, ht]
          · intro _
            simp [MCPManager.stop_server, hl, ht, lookupStr_removeKey]
          · intro q hq hterm
            obtain rfl : p = q := by simpa using hq
            rw [ht] at hterm
            exact absurd hterm (by simp)
      | noSuchProcess =>
          refine ⟨?_, ?_, ?_⟩
          · simp [MCPManager.stop_server, hl, ht]
          · intro _
            simp [MCPManager.stop_server, hl, ht, lookupStr_removeKey]
          · intro q hq hterm
            obtain rfl : p = q := by simpa using hq
            rw [ht] at hterm
            exact absurd hterm (by simp)

/-- C7, witnessed: stopping a concrete server that dies on terminate
removes its entry, and one that survives the force kill keeps the state. -/
theorem c7_witness :
    lookupStr (MCPManager.stop_server (fun _ => TermOutcome.goneOnTerminate)
        ⟨⟨none⟩, [("s1", ⟨1⟩)]⟩ "s1").1.server_processes "s1" = none
    ∧ (MCPManager.stop_server (fun _ => TermOutcome.neverDies)
        ⟨⟨none⟩, [("s1", ⟨1⟩)]⟩ "s1").1 = ⟨⟨none⟩, [("s1", ⟨1⟩)]⟩ :=
  ⟨(stop_server_spec (fun _ => TermOutcome.goneOnTerminate)
      ⟨⟨none⟩, [("s1", ⟨1⟩)]⟩ "s1").2.1 rfl,
   (stop_server_spec (fun _ => TermOutcome.neverDies)
      ⟨⟨none⟩, [("s1", ⟨1⟩)]⟩ "s1").2.2 ⟨1⟩ rfl rfl⟩

/-- C8: evaluating add_context on the repository's own test input shows the
code bug: the returned payload component is none (the Python function has
no return statement), while the conversation stored inside the client is
overwritten in place with the system turn followed by the supplied turns —
the opposite of returning a new value and leaving persistence to the
caller. -/
theorem c8_add_context_eval :
    ClaudeClient.add_context
        (ClaudeClient.create_conversation ⟨[]⟩ "c1" none).1 "c1"
        [⟨"human", "Hello"⟩, ⟨"assistant", "Hi there"⟩]
      = .ok (⟨[("c1", [⟨"system", ClaudeClient.systemPromptBase⟩,
              ⟨"human", "Hello"⟩, ⟨"assistant", "Hi there"⟩])]⟩, none) := rfl

/-- C9: the claim says the controller extracts the actual tool name and
parameters carried by the structured marker. Counterexample: a reply whose
marker names the tool lookup with parameter q=weather yields a pending
request for the hard-coded example_tool instead. -/
theorem c9_hardcoded_tool_cex :
    resultToolName (ClaudeClient.send_message
        (fun _ =>
          "<tool_use>\x7b\"tool\": \"lookup\", \"params\": \x7b\"q\": \"weather\"\x7d\x7d</tool_use>")
        "fresh-1" (ClaudeClient.create_conversation ⟨[]⟩ "c1" none).1 "c1"
        "what is the weather?")
      = some "example_tool"
    ∧ "example_tool" ≠ "lookup" :=
  ⟨rfl, by decide⟩

/-- C9 amended: for every stored conversation, when the assistant reply
contains the literal marker tool_use in angle brackets, send_message
returns a tool_use_request whose ToolRequest carries a freshly minted id
(modelling uuid4) together with the hard-coded tool name example_tool and
parameters param1=value1 — the pair actually carried by the reply is never
extracted. -/
theorem send_message_marker_hardcoded (ai : List Turn → String) (fresh : String)
    (c : ClaudeClient) (cid msg : String) (conv : List Turn)
    (h1 : lookupStr c.conversations cid = some conv)
    (h2 : strContains (ai (conv ++ [⟨"human", msg⟩])) "<tool_use>" = true) :
    ClaudeClient.send_message ai fresh c cid msg =
      .ok (⟨updateAssoc c.conversations cid
              ((conv ++ [⟨"human", msg⟩]) ++
                [⟨"assistant", ai (conv ++ [⟨"human", msg⟩])⟩])⟩,
           ⟨"tool_use_request", ai (conv ++ [⟨"human", msg⟩]),
            some ⟨fresh, "example_tool", [("param1", "value1")]⟩⟩) := by
  unfold ClaudeClient.send_message
  rw [h1]
  simp [ClaudeClient.classifyResponse, ClaudeClient.hardcodedRequest, h2]

/-- C9 amended, witnessed at a concrete client and reply. -/
theorem c9_amended_witness :
    ClaudeClient.send_message (fun _ => "<tool_use></tool_use>") "fresh-2"
        ⟨[("c1", [⟨"system", "s"⟩])]⟩ "c1" "hi" =
      .ok (⟨[("c1", [⟨"system", "s"⟩, ⟨"human", "hi"⟩,
              ⟨"assistant", "<tool_use></tool_use>"⟩])]⟩,
           ⟨"tool_use_request", "<tool_use></tool_use>",
            some ⟨"fresh-2", "example_tool", [("param1", "value1")]⟩⟩) :=
  send_message_marker_hardcoded (fun _ => "<tool_use></tool_use>") "fresh-2"
    ⟨[("c1", [⟨"system", "s"⟩])]⟩ "c1" "hi" [⟨"system", "s"⟩] rfl rfl

/-- The filter condition of the thread-history formatters: a message is
kept exactly when its bot_id is Python-falsy. -/
def lacksBotId (m : SlackMsg) : Bool := !(optTruthy m.bot_id)

/-- Helper: the utils formatter keeps exactly the falsy-bot_id messages, in
order, as human turns. -/
theorem format_message_eq_filter (msgs : List SlackMsg) :
    format_message_for_claude msgs =
      (msgs.filter lacksBotId).map (fun m => ⟨"human", m.text.getD ""⟩) := by
  induction msgs with
  | nil => rfl
  | cons m rest ih =>
      by_cases h : optTruthy m.bot_id
      · simp [format_message_for_claude, h, lacksBotId, List.filter_cons, ih]
      · simp [format_message_for_claude, h, lacksBotId, List.filter_cons, ih]

/-- Helper: when every message carries a text key, the slack_client
formatter returns the same list without raising. -/
theorem format_messages_eq_filter (msgs : List SlackMsg)
    (h : ∀ m ∈ msgs, m.text.isSome = true) :
    format_messages_for_claude msgs =
      .ok ((msgs.filter lacksBotId).map (fun m => ⟨"human", m.text.getD ""⟩)) := by
  induction msgs with
  | nil => rfl
  | cons m rest ih =>
      have hrest : ∀ x ∈ rest, x.text.isSome = true := fun x hx => h x (by simp [hx])
      obtain ⟨t, ht⟩ : ∃ t, m.text = some t :=
        Option.isSome_iff_exists.mp (h m (by simp))
      by_cases hb : optTruthy m.bot_id
      · simp [format_messages_for_claude, hb, lacksBotId, List.filter_cons, ih hrest]
      · simp [format_messages_for_claude, hb, ht, lacksBotId, List.filter_cons, ih hrest]

/-- C10: both thread-history formatters return exactly the messages whose
bot_id is Python-falsy, in their original order, every output turn having
role human (so the assistant branch of the role expression is unreachable
and imported history never contains assistant turns); the slack_client
variant additionally requires every message to carry a text key, raising
KeyError otherwise. -/
theorem format_for_claude_spec (msgs : List SlackMsg) :
    format_message_for_claude msgs =
      (msgs.filter lacksBotId).map (fun m => ⟨"human", m.text.getD ""⟩)
    ∧ ((∀ m ∈ msgs, m.text.isSome = true) →
        format_messages_for_claude msgs =
          .ok ((msgs.filter lacksBotId).map (fun m => ⟨"human", m.text.getD ""⟩)))
    ∧ (∀ t ∈ format_message_for_claude msgs, t.role = "human") := by
  refine ⟨format_message_eq_filter msgs, format_messages_eq_filter msgs, ?_⟩
  intro t ht
  rw [format_message_eq_filter msgs] at ht
  obtain ⟨m, _, rfl⟩ := List.mem_map.mp ht
  rfl

/-- C10, witnessed on a concrete thread containing a bot message, a user
message, and a message with a present but empty bot_id. -/
theorem c10_witness :
    format_messages_for_claude
        [⟨some "B1", some "from the bot"⟩, ⟨none, some "hi"⟩, ⟨some "", some "note"⟩]
      = .ok [⟨"human", "hi"⟩, ⟨"human", "note"⟩] :=
  (format_for_claude_spec
      [⟨some "B1", some "from the bot"⟩, ⟨none, some "hi"⟩, ⟨some "", some "note"⟩]).2.1
    (by decide)
